import Mathlib

/-!
Verification development for the EcomCompare crawling and matching core.

The definitions below are a shallow embedding of the JavaScript source:

* `MatchingService` (similarity scoring and match assignment),
* `BaseCrawler.parsePrice` (locale-aware price parsing),
* `CheerioCrawler.deduplicateProducts` and the budgeted `crawl` loop,
* the `Website` model and its route handlers (source-role management).

JavaScript numbers are modelled as `Rat` (prices and scores are small
decimals; `NaN` is represented explicitly where it can arise), strings as
`String`/`List Char`, and `null`/`undefined` as `Option`.  JavaScript
truthiness on the relevant fields (`""`, `0` and `null` are falsy) is
modelled by the `truthyStr`/`truthyPrice` helpers.
-/

namespace EcomCompare

/-! ## JavaScript truthiness helpers -/

/-- Truthiness of an optional string field: JavaScript treats `null`,
`undefined` and `""` as falsy. -/
def truthyStr : Option String → Bool
  | Option.none => false
  | some s => !s.isEmpty

/-- Truthiness of an optional numeric field: JavaScript treats `null`,
`undefined` and `0` as falsy. -/
def truthyPrice : Option ℚ → Bool
  | Option.none => false
  | some p => decide (p ≠ 0)

/-! ## Character-level string helpers

These model the JavaScript string primitives used by the source
(`toLowerCase`, `trim`, regex replaces over `\w`/`\s`, `includes`,
`lastIndexOf`, `split`, `replace`).  `\w` is `[A-Za-z0-9_]` and `\s` is
modelled by `Char.isWhitespace`, which covers the whitespace characters
appearing in scraped ASCII text. -/

/-- A `\w` word character: ASCII letter, digit or underscore. -/
def isWordChar (c : Char) : Bool := c.isAlphanum || c == '_'

/-- Whether `pat` occurs as a prefix of `l` (helper for substring search). -/
def charsStartWith : List Char → List Char → Bool
  | _, [] => true
  | [], _ :: _ => false
  | a :: as, b :: bs => a == b && charsStartWith as bs

/-- Whether `pat` occurs contiguously inside `big`; models
`big.includes(pat)` on JavaScript strings. -/
def charsContain (big pat : List Char) : Bool :=
  match big with
  | [] => pat.isEmpty
  | _ :: rest => charsStartWith big pat || charsContain rest pat

/-- Models `String.prototype.lastIndexOf` for a single character:
the greatest index holding `c`, or `-1` if absent. -/
def lastIndexAux (c : Char) : List Char → Nat → Int → Int
  | [], _, acc => acc
  | x :: xs, i, acc => lastIndexAux c xs (i + 1) (if x == c then (i : Int) else acc)

/-- Models JavaScript `l.lastIndexOf(c)` as `lastIndexOfChar c l`. -/
def lastIndexOfChar (c : Char) (l : List Char) : Int := lastIndexAux c l 0 (-1)

/-- Replace the first occurrence of `t` by `r`; models the
single-replacement form `str.replace(t, r)` with one-character strings. -/
def replaceFirstChar (t r : Char) : List Char → List Char
  | [] => []
  | x :: xs => if x == t then r :: xs else x :: replaceFirstChar t r xs

/-- Remove the first occurrence of `t`; models `str.replace(t, "")`. -/
def removeFirstChar (t : Char) : List Char → List Char
  | [] => []
  | x :: xs => if x == t then xs else x :: removeFirstChar t xs

/-- Split on a separator character; models `str.split(sep)` (empty pieces
are kept, as in JavaScript). -/
def splitOnChar (sep : Char) (l : List Char) : List (List Char) :=
  l.foldr
    (fun c acc =>
      if c == sep then [] :: acc
      else
        match acc with
        | [] => [[c]]
        | w :: ws => (c :: w) :: ws)
    [[]]

/-- Maximal runs separated by whitespace; models `str.split(/\s+/)` up to
the empty pieces, which every caller filters away by length. -/
def splitWs (l : List Char) : List (List Char) :=
  l.foldr
    (fun c acc =>
      if c.isWhitespace then [] :: acc
      else
        match acc with
        | [] => [[c]]
        | w :: ws => (c :: w) :: ws)
    [[]]

/-- Collapse each maximal whitespace run into one space; models
`str.replace(/\s+/g, " ")`. -/
def collapseWs : List Char → List Char
  | [] => []
  | [c] => if c.isWhitespace then [' '] else [c]
  | c :: d :: rest =>
    if c.isWhitespace then
      if d.isWhitespace then collapseWs (d :: rest)
      else ' ' :: collapseWs (d :: rest)
    else c :: collapseWs (d :: rest)

/-- Strip leading and trailing whitespace; models `str.trim()`. -/
def trimChars (l : List Char) : List Char :=
  ((l.dropWhile Char.isWhitespace).reverse.dropWhile Char.isWhitespace).reverse

/-- Lowercase every character; models `str.toLowerCase()` on the ASCII
text this application handles. -/
def strToLower (s : String) : String := String.mk (s.toList.map Char.toLower)

/-- Models `str.toLowerCase().trim()`, the SKU normalization of the source. -/
def normSku (s : String) : String :=
  String.mk (trimChars (strToLower s).toList)

/-! ## Levenshtein distance

Models the `distance` function of the `fastest-levenshtein` package: the
standard unit-cost edit distance (insertion, deletion, substitution).  The
definition is fuel-indexed so that it is structurally recursive; the sum of
the two lengths is always enough fuel, because every recursive call removes
at least one character. -/

def levFuel : Nat → List Char → List Char → Nat
  | _, [], ys => ys.length
  | _, x :: xs, [] => (x :: xs).length
  | 0, _ :: _, _ :: _ => 0
  | f + 1, x :: xs, y :: ys =>
    if x = y then levFuel f xs ys
    else 1 + min (levFuel f xs (y :: ys)) (min (levFuel f (x :: xs) ys) (levFuel f xs ys))

/-- The Levenshtein edit distance between two character lists. -/
def lev (xs ys : List Char) : Nat := levFuel (xs.length + ys.length) xs ys

/-! ## MatchingService: similarity scoring -/

/-- A product row as read by the matching service (`id`, `name`, `price`,
`sku` are the fields the scorer and the matching loop consult). -/
structure Product where
  id : Nat
  name : Option String
  price : Option ℚ
  sku : Option String
deriving DecidableEq, Repr

/-- The `match_type` tags produced by the service. -/
inductive MatchType where
  | none
  | sku_exact
  | sku_partial
  | name_exact
  | name_fuzzy
  | manual
deriving DecidableEq, Repr

/-- The result of `calculateSimilarity`: a score and a match-type tag. -/
structure SimResult where
  score : ℚ
  matchType : MatchType
deriving DecidableEq, Repr

/-- The `MatchingService` constructor options with their default values
(`minSimilarity` 0.6, `skuMatchBoost` 1.0, `nameWeight` 0.7,
`priceWeight` 0.3, `maxPriceDiffRatio` 0.3). -/
structure MatchOptions where
  minSimilarity : ℚ := mkRat 6 10
  skuMatchBoost : ℚ := 1
  nameWeight : ℚ := mkRat 7 10
  priceWeight : ℚ := mkRat 3 10
  maxPriceDiffRat : ℚ := mkRat 3 10
deriving DecidableEq, Repr

/-- The options of `new MatchingService({})`. -/
def defaultOptions : MatchOptions := {}

/-- The name normalization inside `calculateNameSimilarity`:
lowercase, replace `[^\w\s]` by spaces, collapse whitespace, trim. -/
def normalizeName (s : String) : String :=
  String.mk (trimChars (collapseWs
    ((strToLower s).toList.map fun c =>
      if isWordChar c || c.isWhitespace then c else ' ')))

/-- Models `calculateNameSimilarity`: Levenshtein-based similarity in `[0,1]`
between two (nullable) names. -/
def calculateNameSimilarity (name1 name2 : Option String) : ℚ :=
  if truthyStr name1 && truthyStr name2 then
    let n1 := normalizeName (name1.getD "")
    let n2 := normalizeName (name2.getD "")
    if n1 = n2 then 1
    else
      let maxLen := max n1.length n2.length
      if maxLen = 0 then 0
      else 1 - (lev n1.toList n2.toList : ℚ) / (maxLen : ℚ)
  else 0

/-- The token set of `getWords` inside `calculateWordSimilarity`:
lowercase, punctuation replaced by spaces, split on whitespace, keep words
longer than 2 characters.  The JavaScript `Set` is modelled as a `Finset`;
only its cardinality is ever consumed. -/
def getWords (s : String) : Finset String :=
  (((splitWs ((strToLower s).toList.map fun c =>
      if isWordChar c || c.isWhitespace then c else ' ')).map
    String.mk).filter (fun w => 2 < w.length)).toFinset

/-- Models `calculateWordSimilarity`: Jaccard similarity of the token sets. -/
def calculateWordSimilarity (name1 name2 : Option String) : ℚ :=
  if truthyStr name1 && truthyStr name2 then
    let words1 := getWords (name1.getD "")
    let words2 := getWords (name2.getD "")
    if words1.card = 0 ∨ words2.card = 0 then 0
    else ((words1 ∩ words2).card : ℚ) / ((words1 ∪ words2).card : ℚ)
  else 0

/-- The tail of `calculateSimilarity` after the SKU stage: name similarity
(the better of the two measures) weighted by `nameWeight`, the match-type
update, the price-proximity bonus, and the final cap at 1. -/
def similarityRest (opts : MatchOptions) (sourceProduct competitorProduct : Product)
    (base : ℚ) (ty : MatchType) : SimResult :=
  let levenshteinSim := calculateNameSimilarity sourceProduct.name competitorProduct.name
  let wordSim := calculateWordSimilarity sourceProduct.name competitorProduct.name
  let nameSimilarity := max levenshteinSim wordSim
  let score := base + nameSimilarity * opts.nameWeight
  let matchType :=
    if (9 : ℚ)/10 ≤ nameSimilarity then
      (if ty = MatchType.sku_partial then MatchType.sku_partial else MatchType.name_exact)
    else if opts.minSimilarity ≤ nameSimilarity then
      (if ty = MatchType.sku_partial then MatchType.sku_partial else MatchType.name_fuzzy)
    else ty
  let score2 :=
    if truthyPrice sourceProduct.price && truthyPrice competitorProduct.price then
      let p1 := sourceProduct.price.getD 0
      let p2 := competitorProduct.price.getD 0
      let priceDiff := |p1 - p2|
      let avgPrice := (p1 + p2) / 2
      let priceDiffRat := priceDiff / avgPrice
      if priceDiffRat ≤ opts.maxPriceDiffRat then
        score + (1 - priceDiffRat / opts.maxPriceDiffRat) * opts.priceWeight
      else score
    else score
  { score := min score2 1, matchType := matchType }

/-- Models `calculateSimilarity`: exact-SKU short circuit, partial-SKU boost,
then the name/price stages of `similarityRest`. -/
def calculateSimilarity (opts : MatchOptions)
    (sourceProduct competitorProduct : Product) : SimResult :=
  if truthyStr sourceProduct.sku && truthyStr competitorProduct.sku then
    let normalizedSourceSku := normSku (sourceProduct.sku.getD "")
    let normalizedCompSku := normSku (competitorProduct.sku.getD "")
    if normalizedSourceSku = normalizedCompSku then
      { score := opts.skuMatchBoost, matchType := MatchType.sku_exact }
    else if charsContain normalizedSourceSku.toList normalizedCompSku.toList ||
        charsContain normalizedCompSku.toList normalizedSourceSku.toList then
      similarityRest opts sourceProduct competitorProduct (3/10) MatchType.sku_partial
    else
      similarityRest opts sourceProduct competitorProduct 0 MatchType.none
  else
    similarityRest opts sourceProduct competitorProduct 0 MatchType.none

/-! ## MatchingService: match assignment -/

/-- A match record as built by `findMatchesForProduct` and persisted by
`runMatching` (the transient `competitor_product` back-reference carried by
the in-memory object is not persisted and is omitted). -/
structure MatchRec where
  source_product_id : Nat
  competitor_product_id : Nat
  match_type : MatchType
  match_score : ℚ
  is_confirmed : Bool
deriving DecidableEq, Repr

/-- The per-run options of `runMatching`.  `maxMatchesPerProduct = 0`
models an absent (or zero, hence falsy) value, defaulted to 5 by
`options.maxMatchesPerProduct || 5`. -/
structure RunOptions where
  allowDuplicateMatches : Bool := false
  maxMatchesPerProduct : Nat := 0
deriving DecidableEq, Repr

/-- The effective per-source match cap: `options.maxMatchesPerProduct || 5`. -/
def effectiveMax (ropts : RunOptions) : Nat :=
  if ropts.maxMatchesPerProduct = 0 then 5 else ropts.maxMatchesPerProduct

/-- The admission test of `findMatchesForProduct` for one competitor:
build the match record when `score >= minSimilarity` or the match is
SKU-exact (always admitted), else drop the candidate. -/
def candidateFor (opts : MatchOptions) (sourceProduct competitor : Product) :
    Option MatchRec :=
  let r := calculateSimilarity opts sourceProduct competitor
  if opts.minSimilarity ≤ r.score ∨ r.matchType = MatchType.sku_exact then
    some { source_product_id := sourceProduct.id,
           competitor_product_id := competitor.id,
           match_type := r.matchType,
           match_score := r.score,
           is_confirmed := r.matchType = MatchType.sku_exact }
  else Option.none

/-- Models `findMatchesForProduct`: score one source product against every
competitor, keep candidates passing the admission test, and sort by score
descending.  JavaScript `Array.prototype.sort` is stable, and for a total
comparator the stable sorted permutation is unique, so the stable
`List.insertionSort` produces the same list. -/
def findMatchesForProduct (opts : MatchOptions) (sourceProduct : Product)
    (competitorProducts : List Product) : List MatchRec :=
  (competitorProducts.filterMap (candidateFor opts sourceProduct)).insertionSort
    fun a b => b.match_score ≤ a.match_score

/-- The `filteredMatches` of one loop iteration of `runMatching`:
competitors already consumed are dropped unless duplicates are allowed. -/
def filteredMatchesFor (opts : MatchOptions) (ropts : RunOptions)
    (competitorProducts : List Product) (consumed : Finset ℕ)
    (sourceProduct : Product) : List MatchRec :=
  if ropts.allowDuplicateMatches then
    findMatchesForProduct opts sourceProduct competitorProducts
  else
    (findMatchesForProduct opts sourceProduct competitorProducts).filter
      fun m => m.competitor_product_id ∉ consumed

/-- The `topMatches` of one loop iteration: the first
`maxMatchesPerProduct || 5` filtered matches. -/
def topMatchesFor (opts : MatchOptions) (ropts : RunOptions)
    (competitorProducts : List Product) (consumed : Finset ℕ)
    (sourceProduct : Product) : List MatchRec :=
  (filteredMatchesFor opts ropts competitorProducts consumed sourceProduct).take
    (effectiveMax ropts)

/-- The consumed-competitor set after one iteration (only grown when
duplicate matches are disallowed). -/
def nextConsumed (opts : MatchOptions) (ropts : RunOptions)
    (competitorProducts : List Product) (consumed : Finset ℕ)
    (sourceProduct : Product) : Finset ℕ :=
  if ropts.allowDuplicateMatches then consumed
  else consumed ∪
    ((topMatchesFor opts ropts competitorProducts consumed sourceProduct).map
      (·.competitor_product_id)).toFinset

/-- The source-product loop of `runMatching`: for each source product,
append its top filtered matches to the output and mark their competitors
as consumed. -/
def runLoop (opts : MatchOptions) (ropts : RunOptions)
    (competitorProducts : List Product) :
    List Product → Finset ℕ → List MatchRec
  | [], _ => []
  | sourceProduct :: rest, matchedCompetitors =>
    topMatchesFor opts ropts competitorProducts matchedCompetitors sourceProduct ++
      runLoop opts ropts competitorProducts rest
        (nextConsumed opts ropts competitorProducts matchedCompetitors sourceProduct)

/-- The summary object returned by `runMatching`. -/
structure RunResult where
  total_source_products : Nat
  total_competitor_products : Nat
  matches_found : Nat
  matchList : List MatchRec
deriving DecidableEq, Repr

/-- The error message thrown when no source products exist. -/
def noSourceMsg : String :=
  "No source products found. Please set a source website and crawl it first."

/-- The error message thrown when no competitor products exist. -/
def noCompetitorMsg : String :=
  "No competitor products found. Please add competitor websites and crawl them first."

/-- Models `ProductMatch.createMany`: each row is written with
`INSERT OR REPLACE` keyed on the `(source, competitor)` unique pair, so an
existing row for the pair is replaced. -/
def upsertMany (rows items : List MatchRec) : List MatchRec :=
  items.foldl
    (fun rs it =>
      rs.filter (fun r =>
        !(r.source_product_id == it.source_product_id &&
          r.competitor_product_id == it.competitor_product_id)) ++ [it])
    rows

/-- Models `runMatching`: fail fast on an empty source or competitor partition,
run the assignment loop, persist the batch (only when non-empty) and
return the summary.  The persisted match store is threaded explicitly; an
error leaves it untouched. -/
def runMatchingCore (opts : MatchOptions) (ropts : RunOptions)
    (sourceProducts competitorProducts : List Product)
    (store : List MatchRec) : Except String RunResult × List MatchRec :=
  if sourceProducts.length = 0 then (Except.error noSourceMsg, store)
  else if competitorProducts.length = 0 then (Except.error noCompetitorMsg, store)
  else
    let allMatches := runLoop opts ropts competitorProducts sourceProducts ∅
    let store' := if 0 < allMatches.length then upsertMany store allMatches else store
    (Except.ok
      { total_source_products := sourceProducts.length,
        total_competitor_products := competitorProducts.length,
        matches_found := allMatches.length,
        matchList := allMatches },
     store')

/-! ## BaseCrawler.parsePrice

The outcome distinguishes `null` from JavaScript `NaN`: the comma branches
of the source return the result of `parseFloat` directly, so `NaN` can
escape there, while the final branch guards with `|| null` (which also
turns a parsed `0` into `null`). -/

/-- The value `parsePrice` evaluates to: `null`, `NaN`, or a number. -/
inductive PriceResult where
  | null
  | nan
  | num (q : ℚ)
deriving DecidableEq, Repr

/-- The numeric value of a digit string (most significant first). -/
def natOfDigits (l : List Char) : ℕ :=
  l.foldl (fun acc c => acc * 10 + (c.toNat - '0'.toNat)) 0

/-- Models `parseFloat` on the cleaned strings `parsePrice` feeds it —
strings over digits, `.` and `,` only: the longest numeric prefix
`digits [ . digits ]` is parsed; an empty prefix (or a bare `.`) is `NaN`.
(`parseFloat` whitespace/sign/exponent handling never triggers on these
inputs.) -/
def parseFloatQ (l : List Char) : Option ℚ :=
  let intDigits := l.takeWhile Char.isDigit
  let rest := l.drop intDigits.length
  match rest with
  | '.' :: rest2 =>
    let fracDigits := rest2.takeWhile Char.isDigit
    if intDigits.isEmpty && fracDigits.isEmpty then Option.none
    else some (mkRat
      (natOfDigits intDigits * 10 ^ fracDigits.length + natOfDigits fracDigits)
      (10 ^ fracDigits.length))
  | _ => if intDigits.isEmpty then Option.none else some (mkRat (natOfDigits intDigits) 1)

/-- Lift a `parseFloat` result returned directly by the source
(`NaN` is passed through). -/
def ofParsed : Option ℚ → PriceResult
  | Option.none => PriceResult.nan
  | some q => PriceResult.num q

/-- Models `BaseCrawler.parsePrice`: strip everything but digits and separators,
then branch on which separators are present.  With both separators, the
later one is the decimal point.  With only commas, a 2-digit final group
means a decimal comma.  The final branch applies `parseFloat(cleaned) || null`;
the comma branches return `parseFloat` results unguarded. -/
def parsePrice (priceStr : String) : PriceResult :=
  if priceStr.isEmpty then PriceResult.null
  else
    let cleaned := priceStr.toList.filter fun c => c.isDigit || c == '.' || c == ','
    if cleaned.contains ',' && cleaned.contains '.' then
      let lastComma := lastIndexOfChar ',' cleaned
      let lastDot := lastIndexOfChar '.' cleaned
      if lastDot < lastComma then
        ofParsed (parseFloatQ (replaceFirstChar ',' '.' (cleaned.filter (· ≠ '.'))))
      else
        ofParsed (parseFloatQ (cleaned.filter (· ≠ ',')))
    else if cleaned.contains ',' then
      let parts := splitOnChar ',' cleaned
      if (parts.getLastD []).length = 2 then
        ofParsed (parseFloatQ (replaceFirstChar ',' '.' cleaned))
      else
        ofParsed (parseFloatQ (removeFirstChar ',' cleaned))
    else
      match parseFloatQ cleaned with
      | Option.none => PriceResult.null
      | some q => if q = 0 then PriceResult.null else PriceResult.num q

/-! ## Deduplicator (CheerioCrawler / PuppeteerCrawler, identical code) -/

/-- A raw product record as produced by page extraction. -/
structure RawProduct where
  name : String
  price : Option ℚ
  sku : Option String
  image_url : Option String
  product_url : Option String
deriving DecidableEq, Repr

/-- Models `product.sku || product.product_url || product.name`: the identity key
used by `deduplicateProducts` (first truthy value in that order). -/
def identityKey (product : RawProduct) : String :=
  if truthyStr product.sku then product.sku.getD ""
  else if truthyStr product.product_url then product.product_url.getD ""
  else product.name

/-- The merge performed on a later duplicate: backfill `price`, `sku` and
`image_url` when the canonical entry holds a falsy value and the duplicate
a truthy one; every other field of the canonical entry is kept. -/
def mergeInto (existing product : RawProduct) : RawProduct :=
  { existing with
    price := if !truthyPrice existing.price && truthyPrice product.price
      then product.price else existing.price,
    sku := if !truthyStr existing.sku && truthyStr product.sku
      then product.sku else existing.sku,
    image_url := if !truthyStr existing.image_url && truthyStr product.image_url
      then product.image_url else existing.image_url }

/-- One step of the dedup fold: the `Map` keyed by `identityKey`, in
insertion order, is an association list; an existing entry is merged in
place, a new key is appended. -/
def dedupStep (seen : List (String × RawProduct)) (product : RawProduct) :
    List (String × RawProduct) :=
  let key := identityKey product
  if (seen.map Prod.fst).contains key then
    seen.map fun kv => if kv.1 = key then (kv.1, mergeInto kv.2 product) else kv
  else seen ++ [(key, product)]

/-- Models `deduplicateProducts`: fold the records through the keyed map and
return its values in insertion order. -/
def deduplicateProducts (products : List RawProduct) : List RawProduct :=
  (products.foldl dedupStep []).map Prod.snd

/-! ## CheerioCrawler.crawl (the variant with a failed-page budget)

The network fetch, HTML parsing, extraction and link discovery for one URL
are abstracted into an environment function `env : String → FetchOutcome`;
the loop control flow — visited-set dedup, budgets, progress events,
frontier growth — is translated from the source.  Wall-clock concerns
(`delay`, fetch timeouts) do not affect the sequential semantics and carry
no state here.  `cancelled` is the cooperative flag set by `close()`;
nothing inside a sequential run sets it. -/

/-- What processing one URL yields: a fetch/parse error, or the extracted
products plus the discovered pagination and category links. -/
inductive FetchOutcome where
  | failure
  | success (pageProducts : List RawProduct)
      (paginationLinks categoryLinks : List String)

/-- The progress-event statuses emitted by the crawler. -/
inductive CrawlStatus where
  | starting
  | crawling
  | error
  | completed
  | cancelled
deriving DecidableEq, Repr

/-- One progress event (the free-text `message` field is omitted). -/
structure ProgressEvent where
  status : CrawlStatus
  pagesCrawled : Nat
  productsFound : Nat
deriving DecidableEq, Repr

/-- The crawler instance configuration consulted by the loop
(`maxFailedPages` is set to 5 by the constructor). -/
structure CrawlerConfig where
  baseUrl : String
  maxPages : Nat
  maxFailedPages : Nat
deriving DecidableEq, Repr

/-- The mutable state of one `crawl()` invocation. -/
structure CrawlState where
  urlsToVisit : List String
  visitedUrls : List String
  products : List RawProduct
  pagesCrawled : Nat
  failedPages : Nat
  cancelled : Bool
  events : List ProgressEvent
deriving Repr

/-- Enqueue links that are neither visited nor already queued
(`!visitedUrls.has(link) && !urlsToVisit.includes(link)`). -/
def enqueueLinks (visitedUrls frontier links : List String) : List String :=
  links.foldl
    (fun fr link =>
      if fr.contains link || visitedUrls.contains link then fr else fr ++ [link])
    frontier

/-- The crawl `while` loop: run while the frontier is non-empty, fewer
than `maxPages` pages were crawled and the job is not cancelled; stop with
an error event once `failedPages` reaches the budget; skip visited URLs; a
failed fetch increments `failedPages` and emits an error event; a
successful fetch appends the products, enqueues pagination then category
links, increments `pagesCrawled` and emits a crawling event. -/
def crawlLoop (cfg : CrawlerConfig) (env : String → FetchOutcome)
    (st : CrawlState) : CrawlState :=
  if st.urlsToVisit.isEmpty then st
  else if h2 : ¬ st.pagesCrawled < cfg.maxPages then st
  else if st.cancelled then st
  else if cfg.maxFailedPages ≤ st.failedPages then
    { st with events := st.events ++
        [⟨CrawlStatus.error, st.pagesCrawled, st.products.length⟩] }
  else
    match h4 : st.urlsToVisit with
    | [] => st
    | url :: rest =>
      if st.visitedUrls.contains url then
        crawlLoop cfg env { st with urlsToVisit := rest }
      else
        let visited := st.visitedUrls ++ [url]
        match env url with
        | FetchOutcome.failure =>
          crawlLoop cfg env
            { st with
              urlsToVisit := rest
              visitedUrls := visited
              failedPages := st.failedPages + 1
              events := st.events ++
                [⟨CrawlStatus.error, st.pagesCrawled, st.products.length⟩] }
        | FetchOutcome.success pageProducts paginationLinks categoryLinks =>
          let products := st.products ++ pageProducts
          let frontier1 := enqueueLinks visited rest paginationLinks
          let frontier2 := enqueueLinks visited frontier1 categoryLinks
          crawlLoop cfg env
            { st with
              urlsToVisit := frontier2
              visitedUrls := visited
              products := products
              pagesCrawled := st.pagesCrawled + 1
              events := st.events ++
                [⟨CrawlStatus.crawling, st.pagesCrawled + 1, products.length⟩] }
termination_by (cfg.maxPages - st.pagesCrawled, st.urlsToVisit.length)
decreasing_by
  · simp only [h4]
    exact Prod.Lex.right _ (by simp)
  · simp only [h4]
    exact Prod.Lex.right _ (by simp)
  · exact Prod.Lex.left _ _ (by omega)

/-- The initial state of `crawl()` (frontier seeded with the base URL, a
`starting` event already emitted). -/
def initState (cfg : CrawlerConfig) : CrawlState :=
  { urlsToVisit := [cfg.baseUrl]
    visitedUrls := []
    products := []
    pagesCrawled := 0
    failedPages := 0
    cancelled := false
    events := [⟨CrawlStatus.starting, 0, 0⟩] }

/-- Models `crawl()`: run the loop, deduplicate the accumulated products, emit
the terminal `completed`/`cancelled` event and return the product list. -/
def crawl (cfg : CrawlerConfig) (env : String → FetchOutcome) :
    List RawProduct × List ProgressEvent :=
  let stF := crawlLoop cfg env (initState cfg)
  let deduped := deduplicateProducts stF.products
  (deduped,
   stF.events ++
     [⟨if stF.cancelled then CrawlStatus.cancelled else CrawlStatus.completed,
       stF.pagesCrawled, deduped.length⟩])

/-! ## Website model and route handlers (source-role management)

The `websites` table is a list of rows; `id` models SQLite
`lastInsertRowid` (one more than the largest existing id). -/

/-- A `websites` row (the columns touched by the handlers). -/
structure WebsiteRow where
  id : Nat
  url : String
  name : String
  is_source : Bool
  crawl_type : String
  status : String
deriving DecidableEq, Repr

/-- The id `INSERT` assigns: one more than the largest id in the table. -/
def nextId (db : List WebsiteRow) : Nat :=
  (db.map (·.id)).foldr max 0 + 1

/-- Models `Website.create`: insert a row with the given `is_source` flag and
status `pending`.  (The `name || hostname` defaulting happens before this
call and is taken as given.) -/
def websiteCreate (db : List WebsiteRow) (url name : String)
    (is_source : Bool) (crawl_type : String) : List WebsiteRow :=
  db ++ [{ id := nextId db, url := url, name := name, is_source := is_source,
           crawl_type := crawl_type, status := "pending" }]

/-- Models `Website.setSource`: clear `is_source` on every row, then set it on
the row with the given id. -/
def websiteSetSource (db : List WebsiteRow) (id : Nat) : List WebsiteRow :=
  (db.map fun w => { w with is_source := false }).map
    fun w => if w.id = id then { w with is_source := true } else w

/-- The `POST /api/websites` handler: reject a duplicate URL (409),
otherwise create the row with the `is_source || false` of the request. -/
def postWebsite (db : List WebsiteRow) (url name : String)
    (is_source : Bool) (crawl_type : String) : List WebsiteRow :=
  if (db.map (·.url)).contains url then db
  else websiteCreate db url name is_source crawl_type

/-- The `PUT /api/websites/:id` handler: 404 if the id is absent;
otherwise update only `name` and `crawl_type`, then run `setSource` when
the body carries `is_source === true`. -/
def putWebsite (db : List WebsiteRow) (id : Nat)
    (name? crawl_type? : Option String) (is_source? : Option Bool) :
    List WebsiteRow :=
  if (db.map (·.id)).contains id then
    let db1 := db.map fun w =>
      if w.id = id then
        { w with name := name?.getD w.name, crawl_type := crawl_type?.getD w.crawl_type }
      else w
    if is_source? = some true then websiteSetSource db1 id else db1
  else db

/-- The `POST /api/websites/:id/set-source` handler: 404 if the id is
absent, otherwise `Website.setSource`. -/
def postSetSource (db : List WebsiteRow) (id : Nat) : List WebsiteRow :=
  if (db.map (·.id)).contains id then websiteSetSource db id else db

/-- The website-store operations the API layer performs. -/
inductive WebsiteOp where
  | create (url name : String) (is_source : Bool) (crawl_type : String)
  | update (id : Nat) (name? crawl_type? : Option String) (is_source? : Option Bool)
  | setSource (id : Nat)
deriving DecidableEq, Repr

/-- Apply one operation through its route handler. -/
def applyOp (db : List WebsiteRow) : WebsiteOp → List WebsiteRow
  | WebsiteOp.create url name is_source crawl_type =>
    postWebsite db url name is_source crawl_type
  | WebsiteOp.update id name? crawl_type? is_source? =>
    putWebsite db id name? crawl_type? is_source?
  | WebsiteOp.setSource id => postSetSource db id

/-- Apply a sequence of operations. -/
def applyOps (db : List WebsiteRow) (ops : List WebsiteOp) : List WebsiteRow :=
  ops.foldl applyOp db

/-- At most one row carries the source role. -/
def atMostOneSource (db : List WebsiteRow) : Prop :=
  (db.filter (·.is_source)).length ≤ 1

instance (db : List WebsiteRow) : Decidable (atMostOneSource db) := by
  unfold atMostOneSource; infer_instance

/-- Whether an operation is a create carrying `is_source = true` (the one
operation that can break the single-source invariant). -/
def noSourceCreate : WebsiteOp → Bool
  | WebsiteOp.create _ _ is_source _ => !is_source
  | _ => true

/-! # Theorems -/

/-- C6: the specified `parsePrice` test vectors hold: the European and US
formats both parse to 1234.56, a currency symbol is stripped, and the
empty and all-letter inputs give `null`. -/
theorem C6_parsePrice_vectors :
    parsePrice "1.234,56" = PriceResult.num (123456/100) ∧
    parsePrice "1,234.56" = PriceResult.num (123456/100) ∧
    parsePrice "$19.99" = PriceResult.num (1999/100) ∧
    parsePrice "" = PriceResult.null ∧
    parsePrice "abc" = PriceResult.null := by
  have h1 : (123456 / 100 : ℚ) = mkRat 123456 100 := by
    rw [Rat.mkRat_eq_div]; norm_num
  have h2 : (1999 / 100 : ℚ) = mkRat 1999 100 := by
    rw [Rat.mkRat_eq_div]; norm_num
  refine ⟨?_, ?_, ?_, ?_, ?_⟩
  · rw [h1]; decide
  · rw [h1]; decide
  · rw [h2]; decide
  · decide
  · decide

/-- C7: on the input `","` (whose cleaned form is a bare separator and
flows through the comma-handling branch) `parsePrice` returns `NaN`, not
`null`: the comma branches return the `parseFloat` result without the
`|| null` guard the final branch applies. -/
theorem C7_parsePrice_comma_is_nan : parsePrice "," = PriceResult.nan := by
  decide

/-- C4: `runMatching` fails fast with the named configuration error — one
message for an empty source partition, a distinct one for an empty
competitor partition — and leaves the match store untouched in both
cases. -/
theorem C4_runMatching_failfast (opts : MatchOptions) (ropts : RunOptions)
    (sources competitors : List Product) (store : List MatchRec) :
    (sources = [] →
      runMatchingCore opts ropts sources competitors store =
        (Except.error noSourceMsg, store)) ∧
    (sources ≠ [] → competitors = [] →
      runMatchingCore opts ropts sources competitors store =
        (Except.error noCompetitorMsg, store)) ∧
    noSourceMsg ≠ noCompetitorMsg := by
  refine ⟨?_, ?_, by decide⟩
  · intro h
    subst h
    simp [runMatchingCore]
  · intro h1 h2
    subst h2
    unfold runMatchingCore
    rw [if_neg (by simpa using h1)]
    simp

/-- Witness for C4 at a concrete input: one source product, zero
competitor products, a store holding one row. -/
theorem C4_witness :
    runMatchingCore defaultOptions {} [⟨1, Option.none, Option.none, Option.none⟩] []
        [⟨7, 8, MatchType.manual, 1, true⟩] =
      (Except.error noCompetitorMsg, [⟨7, 8, MatchType.manual, 1, true⟩]) ∧
    noSourceMsg ≠ noCompetitorMsg := by
  have h := C4_runMatching_failfast defaultOptions {}
    [⟨1, Option.none, Option.none, Option.none⟩] []
    [⟨7, 8, MatchType.manual, 1, true⟩]
  exact ⟨h.2.1 (by decide) rfl, h.2.2⟩

/-- C1: when both SKUs are truthy and agree after lowercasing and
trimming, `calculateSimilarity` under the default options returns exactly
score 1 with type `sku_exact`, independent of names and prices. -/
theorem C1_sku_exact_short_circuit (p q : Product)
    (hp : truthyStr p.sku = true) (hq : truthyStr q.sku = true)
    (h : normSku (p.sku.getD "") = normSku (q.sku.getD "")) :
    calculateSimilarity defaultOptions p q =
      { score := 1, matchType := MatchType.sku_exact } := by
  unfold calculateSimilarity
  rw [hp, hq]
  simp [h, defaultOptions]

/-- Witness for C1: two products whose SKUs differ in case and spacing
but normalize identically. -/
theorem C1_witness :
    calculateSimilarity defaultOptions
        ⟨1, some "Mouse", some 5, some "AB c"⟩
        ⟨2, some "Other", some 9, some " ab C"⟩ =
      { score := 1, matchType := MatchType.sku_exact } :=
  C1_sku_exact_short_circuit _ _ (by decide) (by decide) (by decide)

/-- C5 counterexample: two records share the identity key `"S1"`, the
second carries a populated `product_url`, yet the merged record produced
by `deduplicateProducts` has a null `product_url` — the populated field of
the duplicate is dropped, so the merged record is not the union of the
populated fields of the two records. -/
theorem C5_counterexample :
    identityKey ⟨"Widget", Option.none, some "S1", Option.none, Option.none⟩ =
      identityKey ⟨"Widget", Option.none, some "S1", Option.none, some "u"⟩ ∧
    truthyStr (RawProduct.product_url
      ⟨"Widget", Option.none, some "S1", Option.none, some "u"⟩) = true ∧
    deduplicateProducts
        [⟨"Widget", Option.none, some "S1", Option.none, Option.none⟩,
         ⟨"Widget", Option.none, some "S1", Option.none, some "u"⟩] =
      [⟨"Widget", Option.none, some "S1", Option.none, Option.none⟩] := by
  refine ⟨rfl, rfl, ?_⟩
  decide

/-- C5 (amended): for two records sharing an identity key the dedup output
is the first record with `price`, `sku` and `image_url` backfilled from
the second — on those three fields nothing populated is lost or
overwritten and the populated set is the union — while `name` and
`product_url` are always taken from the first record. -/
theorem C5_dedup_merge_amended (a b : RawProduct)
    (h : identityKey a = identityKey b) :
    deduplicateProducts [a, b] = [mergeInto a b] ∧
    truthyPrice (mergeInto a b).price = (truthyPrice a.price || truthyPrice b.price) ∧
    (truthyPrice a.price = true → (mergeInto a b).price = a.price) ∧
    truthyStr (mergeInto a b).sku = (truthyStr a.sku || truthyStr b.sku) ∧
    (truthyStr a.sku = true → (mergeInto a b).sku = a.sku) ∧
    truthyStr (mergeInto a b).image_url = (truthyStr a.image_url || truthyStr b.image_url) ∧
    (truthyStr a.image_url = true → (mergeInto a b).image_url = a.image_url) ∧
    (mergeInto a b).name = a.name ∧
    (mergeInto a b).product_url = a.product_url := by
  refine ⟨?_, ?_, ?_, ?_, ?_, ?_, ?_, rfl, rfl⟩
  · simp [deduplicateProducts, dedupStep, h]
  · cases hap : truthyPrice a.price <;> cases hbp : truthyPrice b.price <;>
      simp [mergeInto, hap, hbp]
  · intro hap
    simp [mergeInto, hap]
  · cases has : truthyStr a.sku <;> cases hbs : truthyStr b.sku <;>
      simp [mergeInto, has, hbs]
  · intro has
    simp [mergeInto, has]
  · cases hai : truthyStr a.image_url <;> cases hbi : truthyStr b.image_url <;>
      simp [mergeInto, hai, hbi]
  · intro hai
    simp [mergeInto, hai]

/-- Witness for C5 (amended): the two `"S1"`-keyed records of the
counterexample, checked to merge into the backfilled first record. -/
theorem C5_witness :
    deduplicateProducts
        [⟨"Widget", Option.none, some "S1", Option.none, Option.none⟩,
         ⟨"Widget", some 3, some "S1", some "img", some "u"⟩] =
      [mergeInto ⟨"Widget", Option.none, some "S1", Option.none, Option.none⟩
        ⟨"Widget", some 3, some "S1", some "img", some "u"⟩] :=
  (C5_dedup_merge_amended
    ⟨"Widget", Option.none, some "S1", Option.none, Option.none⟩
    ⟨"Widget", some 3, some "S1", some "img", some "u"⟩ (by decide)).1

/-! ### C9: source-role management -/

/-- Any member of a list of naturals is bounded by the `foldr max`. -/
theorem le_foldr_max (n : Nat) (l : List Nat) (h : n ∈ l) : n ≤ l.foldr max 0 := by
  induction l with
  | nil => cases h
  | cons x xs ih =>
    rcases List.mem_cons.mp h with rfl | h'
    · exact Nat.le_max_left _ _
    · exact Nat.le_trans (ih h') (Nat.le_max_right _ _)

/-- Every row id in the table is strictly below the next insert id. -/
theorem id_lt_nextId {db : List WebsiteRow} {w : WebsiteRow} (h : w ∈ db) :
    w.id < nextId db := by
  have := le_foldr_max w.id (db.map (·.id)) (List.mem_map_of_mem _ h)
  unfold nextId
  omega

/-- A map that preserves `id` preserves the id column. -/
theorem map_ids_of_preserve {f : WebsiteRow → WebsiteRow}
    (hf : ∀ w, (f w).id = w.id) (db : List WebsiteRow) :
    (db.map f).map (·.id) = db.map (·.id) := by
  induction db with
  | nil => rfl
  | cons x xs ih => simp [hf, ih]

/-- A map that preserves `is_source` preserves the source count. -/
theorem filter_source_of_preserve {f : WebsiteRow → WebsiteRow}
    (hf : ∀ w, (f w).is_source = w.is_source) (db : List WebsiteRow) :
    ((db.map f).filter (·.is_source)).length = (db.filter (·.is_source)).length := by
  induction db with
  | nil => rfl
  | cons x xs ih =>
    rw [List.map_cons, List.filter_cons, List.filter_cons, hf]
    cases hx : x.is_source <;> simp [hx, ih]

/-- With pairwise-distinct ids, at most one row matches a given id. -/
theorem filter_id_le_one {db : List WebsiteRow}
    (h : (db.map (·.id)).Nodup) (id : Nat) :
    (db.filter (fun w => w.id == id)).length ≤ 1 := by
  induction db with
  | nil => simp
  | cons x xs ih =>
    rw [List.map_cons, List.nodup_cons] at h
    rw [List.filter_cons]
    by_cases hx : x.id = id
    · have hnil : xs.filter (fun w => w.id == id) = [] := by
        rw [List.filter_eq_nil_iff]
        intro w hw hEq
        rw [beq_iff_eq] at hEq
        exact h.1 (by rw [hx, ← hEq]; exact List.mem_map_of_mem _ hw)
      rw [if_pos (by simp [hx]), hnil]
      simp
    · rw [if_neg (by simp [hx])]
      exact ih h.2

/-- Lemma: `websiteSetSource` leaves the id column unchanged. -/
theorem setSource_ids (db : List WebsiteRow) (id : Nat) :
    (websiteSetSource db id).map (·.id) = db.map (·.id) := by
  unfold websiteSetSource
  rw [@map_ids_of_preserve (fun w => if w.id = id then { w with is_source := true } else w)
    (fun w => by by_cases h : w.id = id <;> simp [h]) _]
  exact @map_ids_of_preserve (fun w => { w with is_source := false }) (fun w => rfl) db

/-- Under pairwise-distinct ids, `websiteSetSource` always leaves at most
one source row. -/
theorem setSource_atMostOne (db : List WebsiteRow) (id : Nat)
    (h : (db.map (·.id)).Nodup) : atMostOneSource (websiteSetSource db id) := by
  unfold atMostOneSource websiteSetSource
  have hlen : ∀ l : List WebsiteRow,
      (((l.map fun w => { w with is_source := false }).map
          fun w => if w.id = id then { w with is_source := true } else w).filter
        (·.is_source)).length = (l.filter (fun w => w.id == id)).length := by
    intro l
    induction l with
    | nil => rfl
    | cons x xs ih =>
      rw [List.map_cons, List.map_cons, List.filter_cons, List.filter_cons]
      by_cases hx : x.id = id
      · rw [if_pos (by simp [hx]), if_pos (by simp [hx])]
        rw [List.length_cons, ih]
        rw [if_pos (show (x.id == id) = true by simp [hx]), List.length_cons]
      · rw [if_neg (by simp [hx]), if_neg (by simp [hx])]
        exact ih
  rw [hlen]
  exact filter_id_le_one h id

/-- One route-level operation preserves distinct ids and, provided a
create never carries `is_source = true`, the at-most-one-source
invariant. -/
theorem applyOp_preserves (db : List WebsiteRow) (op : WebsiteOp)
    (hn : (db.map (·.id)).Nodup) (h1 : atMostOneSource db)
    (hop : noSourceCreate op = true) :
    ((applyOp db op).map (·.id)).Nodup ∧ atMostOneSource (applyOp db op) := by
  cases op with
  | create url name is_source crawl_type =>
    have hsrc : is_source = false := by
      simpa [noSourceCreate] using hop
    subst hsrc
    simp only [applyOp]
    unfold postWebsite
    by_cases hurl : (db.map (·.url)).contains url
    · rw [if_pos hurl]
      exact ⟨hn, h1⟩
    · rw [if_neg hurl]
      unfold websiteCreate
      constructor
      · rw [List.map_append]
        rw [List.nodup_append]
        refine ⟨hn, List.nodup_singleton _, ?_⟩
        intro a ha hb
        rcases List.mem_map.mp ha with ⟨w, hw, rfl⟩
        simp only [List.map_cons, List.map_nil, List.mem_singleton] at hb
        have := id_lt_nextId hw
        omega
      · unfold atMostOneSource at h1 ⊢
        rw [List.filter_append]
        simpa using h1
  | update id name? crawl_type? is_source? =>
    simp only [applyOp]
    unfold putWebsite
    by_cases hid : (db.map (·.id)).contains id
    · rw [if_pos hid]
      have hids : ((db.map fun w =>
          if w.id = id then
            { w with name := name?.getD w.name, crawl_type := crawl_type?.getD w.crawl_type }
          else w).map (·.id)) = db.map (·.id) :=
        @map_ids_of_preserve _ (fun w => by by_cases h : w.id = id <;> simp [h]) db
      have hsrc : atMostOneSource (db.map fun w =>
          if w.id = id then
            { w with name := name?.getD w.name, crawl_type := crawl_type?.getD w.crawl_type }
          else w) := by
        unfold atMostOneSource at h1 ⊢
        rw [@filter_source_of_preserve _ (fun w => by by_cases h : w.id = id <;> simp [h]) db]
        exact h1
      by_cases hset : is_source? = some true
      · rw [if_pos hset]
        refine ⟨?_, setSource_atMostOne _ _ (by rw [hids]; exact hn)⟩
        rw [setSource_ids, hids]
        exact hn
      · rw [if_neg hset]
        exact ⟨by rw [hids]; exact hn, hsrc⟩
    · rw [if_neg hid]
      exact ⟨hn, h1⟩
  | setSource id =>
    simp only [applyOp]
    unfold postSetSource
    by_cases hid : (db.map (·.id)).contains id
    · rw [if_pos hid]
      refine ⟨?_, setSource_atMostOne _ _ hn⟩
      rw [setSource_ids]
      exact hn
    · rw [if_neg hid]
      exact ⟨hn, h1⟩

/-- C9 (amended): after any sequence of create/update/set-source
operations in which no create carries `is_source = true`, starting from a
table with distinct ids and at most one source, at most one website is
marked as source (and ids stay distinct); `setSource` itself always clears
the previous source.  The original claim fails because `POST /api/websites`
inserts `is_source` as requested without clearing an existing source. -/
theorem C9_source_invariant_amended (db : List WebsiteRow) (ops : List WebsiteOp)
    (hn : (db.map (·.id)).Nodup) (h1 : atMostOneSource db)
    (hops : ops.all noSourceCreate = true) :
    atMostOneSource (applyOps db ops) ∧ ((applyOps db ops).map (·.id)).Nodup := by
  induction ops generalizing db with
  | nil => exact ⟨h1, hn⟩
  | cons op rest ih =>
    rw [List.all_cons, Bool.and_eq_true] at hops
    have h' := applyOp_preserves db op hn h1 hops.1
    have := ih (applyOp db op) h'.1 h'.2 hops.2
    simpa [applyOps, List.foldl_cons] using this

/-- Witness for C9 (amended): create a competitor site, then promote it
via set-source. -/
theorem C9_witness :
    atMostOneSource (applyOps []
      [WebsiteOp.create "a" "A" false "auto", WebsiteOp.setSource 1]) ∧
    ((applyOps []
      [WebsiteOp.create "a" "A" false "auto", WebsiteOp.setSource 1]).map (·.id)).Nodup :=
  C9_source_invariant_amended []
    [WebsiteOp.create "a" "A" false "auto", WebsiteOp.setSource 1]
    (by decide) (by decide) (by decide)

/-- C9 counterexample: two `POST /api/websites` requests with
`is_source = true` leave two rows simultaneously marked as source, so the
claimed invariant does not hold over the create operation. -/
theorem C9_counterexample :
    ¬ atMostOneSource (applyOps []
      [WebsiteOp.create "a" "A" true "auto", WebsiteOp.create "b" "B" true "auto"]) := by
  decide

/-! ### C2/C3: matching-run invariants -/

/-- Unfolding an admitted candidate: its fields and its admission
condition. -/
theorem candidateFor_eq_some {opts : MatchOptions} {src c : Product}
    {m : MatchRec} (h : candidateFor opts src c = some m) :
    m.source_product_id = src.id ∧ m.competitor_product_id = c.id ∧
    m.match_type = (calculateSimilarity opts src c).matchType ∧
    m.match_score = (calculateSimilarity opts src c).score ∧
    (opts.minSimilarity ≤ m.match_score ∨ m.match_type = MatchType.sku_exact) := by
  unfold candidateFor at h
  by_cases hcond : opts.minSimilarity ≤ (calculateSimilarity opts src c).score ∨
      (calculateSimilarity opts src c).matchType = MatchType.sku_exact
  · rw [if_pos hcond] at h
    cases h
    exact ⟨rfl, rfl, rfl, rfl, hcond⟩
  · rw [if_neg hcond] at h
    cases h

/-- Membership in `findMatchesForProduct` comes from an admitted
competitor. -/
theorem mem_findMatchesForProduct {opts : MatchOptions} {src : Product}
    {comps : List Product} {m : MatchRec}
    (hm : m ∈ findMatchesForProduct opts src comps) :
    ∃ c ∈ comps, candidateFor opts src c = some m := by
  unfold findMatchesForProduct at hm
  rw [(List.perm_insertionSort _ _).mem_iff, List.mem_filterMap] at hm
  exact hm

/-- The competitor ids of the admitted candidates form a sublist of the
competitor id column. -/
theorem filterMap_candidate_sublist (opts : MatchOptions) (src : Product) :
    ∀ comps : List Product,
      List.Sublist
        ((comps.filterMap (candidateFor opts src)).map (·.competitor_product_id))
        (comps.map (·.id)) := by
  intro comps
  induction comps with
  | nil => simp
  | cons c rest ih =>
    rw [List.filterMap_cons, List.map_cons]
    cases hc : candidateFor opts src c with
    | none => exact ih.cons _
    | some m =>
      rw [List.map_cons, (candidateFor_eq_some hc).2.1]
      exact ih.cons₂ _

/-- With pairwise-distinct competitor ids, the sorted candidate list of
one source product has pairwise-distinct competitor ids. -/
theorem findMatches_comp_nodup {opts : MatchOptions} {src : Product}
    {comps : List Product} (hc : (comps.map (·.id)).Nodup) :
    ((findMatchesForProduct opts src comps).map (·.competitor_product_id)).Nodup := by
  unfold findMatchesForProduct
  rw [((List.perm_insertionSort
    (fun a b : MatchRec => b.match_score ≤ a.match_score)
    (comps.filterMap (candidateFor opts src))).map (·.competitor_product_id)).nodup_iff]
  exact (filterMap_candidate_sublist opts src comps).nodup hc

/-- A top match of one iteration is one of the candidates of its source
product. -/
theorem mem_topMatchesFor {opts : MatchOptions} {ropts : RunOptions}
    {comps : List Product} {consumed : Finset ℕ} {src : Product} {m : MatchRec}
    (hm : m ∈ topMatchesFor opts ropts comps consumed src) :
    m ∈ findMatchesForProduct opts src comps := by
  have h := List.take_subset _ _ hm
  unfold filteredMatchesFor at h
  by_cases hdup : ropts.allowDuplicateMatches
  · rwa [if_pos hdup] at h
  · rw [if_neg (by simpa using hdup)] at h
    exact List.mem_of_mem_filter h

/-- Every match the loop emits belongs to the candidate list of some
listed source product. -/
theorem mem_runLoop {opts : MatchOptions} {ropts : RunOptions}
    {comps : List Product} :
    ∀ {srcs : List Product} {consumed : Finset ℕ} {m : MatchRec},
      m ∈ runLoop opts ropts comps srcs consumed →
      ∃ src ∈ srcs, m ∈ findMatchesForProduct opts src comps := by
  intro srcs
  induction srcs with
  | nil =>
    intro consumed m hm
    simp [runLoop] at hm
  | cons src rest ih =>
    intro consumed m hm
    rw [runLoop, List.mem_append] at hm
    rcases hm with hm | hm
    · exact ⟨src, List.mem_cons_self _ _, mem_topMatchesFor hm⟩
    · obtain ⟨s, hs, hm'⟩ := ih hm
      exact ⟨s, List.mem_cons_of_mem _ hs, hm'⟩

/-- The source id carried by every emitted match of a source product. -/
theorem mem_findMatches_src_id {opts : MatchOptions} {src : Product}
    {comps : List Product} {m : MatchRec}
    (hm : m ∈ findMatchesForProduct opts src comps) :
    m.source_product_id = src.id := by
  obtain ⟨c, _, hc⟩ := mem_findMatchesForProduct hm
  exact (candidateFor_eq_some hc).1

/-- With pairwise-distinct source ids, no source id is carried by more
than `maxMatchesPerProduct || 5` matches of the loop output. -/
theorem runLoop_src_bound (opts : MatchOptions) (ropts : RunOptions)
    (comps : List Product) :
    ∀ (srcs : List Product) (consumed : Finset ℕ),
      (srcs.map (·.id)).Nodup → ∀ pid : Nat,
      ((runLoop opts ropts comps srcs consumed).filter
        (fun m => m.source_product_id == pid)).length ≤ effectiveMax ropts := by
  intro srcs
  induction srcs with
  | nil =>
    intro consumed _ pid
    simp [runLoop]
  | cons src rest ih =>
    intro consumed hnd pid
    rw [List.map_cons, List.nodup_cons] at hnd
    rw [runLoop, List.filter_append, List.length_append]
    by_cases hpid : pid = src.id
    · have hrec : ((runLoop opts ropts comps rest
          (nextConsumed opts ropts comps consumed src)).filter
            (fun m => m.source_product_id == pid)) = [] := by
        rw [List.filter_eq_nil_iff]
        intro m hm hbeq
        rw [beq_iff_eq] at hbeq
        obtain ⟨s, hs, hm'⟩ := mem_runLoop hm
        apply hnd.1
        rw [← hpid, ← hbeq, mem_findMatches_src_id hm']
        exact List.mem_map_of_mem _ hs
      rw [hrec]
      simp only [List.length_nil, Nat.add_zero]
      calc ((topMatchesFor opts ropts comps consumed src).filter
            (fun m => m.source_product_id == pid)).length
          ≤ (topMatchesFor opts ropts comps consumed src).length :=
            List.length_filter_le _ _
        _ ≤ effectiveMax ropts := List.length_take_le _ _
    · have htop : ((topMatchesFor opts ropts comps consumed src).filter
          (fun m => m.source_product_id == pid)) = [] := by
        rw [List.filter_eq_nil_iff]
        intro m hm hbeq
        rw [beq_iff_eq] at hbeq
        exact hpid
          ((mem_findMatches_src_id (mem_topMatchesFor hm)).symm.trans hbeq).symm
      rw [htop]
      simp only [List.length_nil, Nat.zero_add]
      exact ih _ hnd.2 pid

/-- With duplicates disallowed and pairwise-distinct competitor ids, the
loop output mentions each competitor id at most once, and never one from
the consumed set. -/
theorem runLoop_comp_nodup (opts : MatchOptions) (ropts : RunOptions)
    (comps : List Product) (hdup : ropts.allowDuplicateMatches = false)
    (hc : (comps.map (·.id)).Nodup) :
    ∀ (srcs : List Product) (consumed : Finset ℕ),
      ((runLoop opts ropts comps srcs consumed).map
        (·.competitor_product_id)).Nodup ∧
      ∀ m ∈ runLoop opts ropts comps srcs consumed,
        m.competitor_product_id ∉ consumed := by
  intro srcs
  induction srcs with
  | nil =>
    intro consumed
    constructor
    · simp [runLoop]
    · intro m hm
      simp [runLoop] at hm
  | cons src rest ih =>
    intro consumed
    have htopsub : List.Sublist (topMatchesFor opts ropts comps consumed src)
        ((findMatchesForProduct opts src comps).filter
          (fun m => m.competitor_product_id ∉ consumed)) := by
      unfold topMatchesFor filteredMatchesFor
      rw [if_neg (by simp [hdup])]
      exact List.take_sublist _ _
    have htopnodup : ((topMatchesFor opts ropts comps consumed src).map
        (·.competitor_product_id)).Nodup :=
      ((htopsub.trans (List.filter_sublist _)).map _).nodup
        (findMatches_comp_nodup hc)
    have htopnotin : ∀ m ∈ topMatchesFor opts ropts comps consumed src,
        m.competitor_product_id ∉ consumed := by
      intro m hm
      have := List.mem_filter.mp (htopsub.subset hm)
      simpa using this.2
    obtain ⟨ihnodup, ihnotin⟩ :=
      ih (nextConsumed opts ropts comps consumed src)
    constructor
    · rw [runLoop, List.map_append]
      rw [List.nodup_append]
      refine ⟨htopnodup, ihnodup, ?_⟩
      intro a ha hb
      rcases List.mem_map.mp hb with ⟨m, hm, rfl⟩
      have hnot := ihnotin m hm
      apply hnot
      unfold nextConsumed
      rw [if_neg (by simp [hdup])]
      rw [Finset.mem_union]
      right
      rw [List.mem_toFinset]
      exact ha
    · intro m hm
      rw [runLoop, List.mem_append] at hm
      rcases hm with hm | hm
      · exact htopnotin m hm
      · intro hin
        apply ihnotin m hm
        unfold nextConsumed
        rw [if_neg (by simp [hdup]), Finset.mem_union]
        exact Or.inl hin

/-- A successful `runMatching` returns exactly the loop output. -/
theorem runMatchingCore_ok {opts : MatchOptions} {ropts : RunOptions}
    {sources competitors : List Product} {store : List MatchRec}
    {res : RunResult}
    (h : (runMatchingCore opts ropts sources competitors store).1 = Except.ok res) :
    res.matchList = runLoop opts ropts competitors sources ∅ := by
  unfold runMatchingCore at h
  by_cases h1 : sources.length = 0
  · rw [if_pos h1] at h
    cases h
  · rw [if_neg h1] at h
    by_cases h2 : competitors.length = 0
    · rw [if_pos h2] at h
      cases h
    · rw [if_neg h2] at h
      simp only at h
      cases h
      rfl

/-- C2: in the match list a successful `runMatching` returns, no source
product id is the source side of more than `maxMatchesPerProduct || 5`
matches, and with `allowDuplicateMatches` false no competitor product id
is the competitor side of more than one match (assuming the product rows
carry pairwise-distinct ids, as database rows do). -/
theorem C2_runMatching_caps (opts : MatchOptions) (ropts : RunOptions)
    (sources competitors : List Product) (store : List MatchRec)
    (res : RunResult)
    (hs : (sources.map (·.id)).Nodup) (hc : (competitors.map (·.id)).Nodup)
    (h : (runMatchingCore opts ropts sources competitors store).1 = Except.ok res) :
    (∀ pid : Nat,
      (res.matchList.filter (fun m => m.source_product_id == pid)).length ≤
        effectiveMax ropts) ∧
    (ropts.allowDuplicateMatches = false →
      (res.matchList.map (·.competitor_product_id)).Nodup) := by
  rw [runMatchingCore_ok h]
  constructor
  · intro pid
    exact runLoop_src_bound opts ropts competitors sources ∅ hs pid
  · intro hdup
    exact (runLoop_comp_nodup opts ropts competitors hdup hc sources ∅).1

/-- Witness for C2: a run of one source product against two competitors
sharing its SKU. -/
theorem C2_witness :
    (∀ pid : Nat,
      (([⟨1, 2, MatchType.sku_exact, 1, true⟩,
         ⟨1, 3, MatchType.sku_exact, 1, true⟩] : List MatchRec).filter
        (fun m => m.source_product_id == pid)).length ≤ effectiveMax {}) ∧
    (([⟨1, 2, MatchType.sku_exact, 1, true⟩,
       ⟨1, 3, MatchType.sku_exact, 1, true⟩] : List MatchRec).map
      (·.competitor_product_id)).Nodup := by
  have h := C2_runMatching_caps { minSimilarity := mkRat 6 10 } {}
    [⟨1, Option.none, Option.none, some "K1"⟩]
    [⟨2, Option.none, Option.none, some "K1"⟩,
     ⟨3, Option.none, Option.none, some "K1"⟩] []
    ⟨1, 2, 2, [⟨1, 2, MatchType.sku_exact, 1, true⟩,
               ⟨1, 3, MatchType.sku_exact, 1, true⟩]⟩
    (by decide) (by decide) rfl
  exact ⟨h.1, h.2 rfl⟩

/-- C3: every match in the output of a successful run that is not
SKU-exact has `match_score ≥ minSimilarity`, and a SKU-exact candidate is
always admitted into the candidate list of its source product regardless
of the threshold. -/
theorem C3_runMatching_threshold (opts : MatchOptions) (ropts : RunOptions)
    (sources competitors : List Product) (store : List MatchRec)
    (res : RunResult)
    (h : (runMatchingCore opts ropts sources competitors store).1 = Except.ok res) :
    (∀ m ∈ res.matchList,
      m.match_type ≠ MatchType.sku_exact → opts.minSimilarity ≤ m.match_score) ∧
    (∀ (src c : Product) (comps : List Product), c ∈ comps →
      (calculateSimilarity opts src c).matchType = MatchType.sku_exact →
      ∃ m ∈ findMatchesForProduct opts src comps,
        m.competitor_product_id = c.id ∧ m.match_type = MatchType.sku_exact) := by
  constructor
  · intro m hm hty
    rw [runMatchingCore_ok h] at hm
    obtain ⟨s, _, hm'⟩ := mem_runLoop hm
    obtain ⟨c, _, hc⟩ := mem_findMatchesForProduct hm'
    rcases (candidateFor_eq_some hc).2.2.2.2 with hle | hexact
    · exact hle
    · exact absurd hexact hty
  · intro src c comps hcmem hexact
    refine ⟨⟨src.id, c.id, (calculateSimilarity opts src c).matchType,
        (calculateSimilarity opts src c).score,
        decide ((calculateSimilarity opts src c).matchType = MatchType.sku_exact)⟩,
      ?_, rfl, hexact⟩
    unfold findMatchesForProduct
    rw [(List.perm_insertionSort _ _).mem_iff, List.mem_filterMap]
    refine ⟨c, hcmem, ?_⟩
    unfold candidateFor
    rw [if_pos (Or.inr hexact)]

/-- Witness for C3: the same one-source, two-competitor SKU run. -/
theorem C3_witness :
    (∀ m ∈ (⟨1, 2, 2, [⟨1, 2, MatchType.sku_exact, 1, true⟩,
        ⟨1, 3, MatchType.sku_exact, 1, true⟩]⟩ : RunResult).matchList,
      m.match_type ≠ MatchType.sku_exact →
        ({ minSimilarity := mkRat 6 10 } : MatchOptions).minSimilarity ≤
          m.match_score) ∧
    (∀ (src c : Product) (comps : List Product), c ∈ comps →
      (calculateSimilarity { minSimilarity := mkRat 6 10 } src c).matchType =
        MatchType.sku_exact →
      ∃ m ∈ findMatchesForProduct { minSimilarity := mkRat 6 10 } src comps,
        m.competitor_product_id = c.id ∧ m.match_type = MatchType.sku_exact) :=
  C3_runMatching_threshold { minSimilarity := mkRat 6 10 } {}
    [⟨1, Option.none, Option.none, some "K1"⟩]
    [⟨2, Option.none, Option.none, some "K1"⟩,
     ⟨3, Option.none, Option.none, some "K1"⟩] []
    ⟨1, 2, 2, [⟨1, 2, MatchType.sku_exact, 1, true⟩,
               ⟨1, 3, MatchType.sku_exact, 1, true⟩]⟩
    rfl

/-! ### C8: crawl-loop budgets -/

/-- Exit equation: the loop stops on an exhausted frontier. -/
theorem crawlLoop_empty {cfg : CrawlerConfig} {env : String → FetchOutcome}
    {st : CrawlState} (h1 : st.urlsToVisit.isEmpty = true) :
    crawlLoop cfg env st = st := by
  rw [crawlLoop, if_pos h1]

/-- Exit equation: the loop stops at the page budget. -/
theorem crawlLoop_maxPages {cfg : CrawlerConfig} {env : String → FetchOutcome}
    {st : CrawlState} (h1 : ¬ st.urlsToVisit.isEmpty = true)
    (h2 : ¬ st.pagesCrawled < cfg.maxPages) :
    crawlLoop cfg env st = st := by
  rw [crawlLoop, if_neg h1, dif_pos h2]

/-- Exit equation: the loop stops when cancelled. -/
theorem crawlLoop_cancel {cfg : CrawlerConfig} {env : String → FetchOutcome}
    {st : CrawlState} (h1 : ¬ st.urlsToVisit.isEmpty = true)
    (h2 : ¬¬ st.pagesCrawled < cfg.maxPages) (h3 : st.cancelled = true) :
    crawlLoop cfg env st = st := by
  rw [crawlLoop, if_neg h1, dif_neg h2, if_pos h3]

/-- Exit equation: once the failed-page budget is reached the loop emits
the budget error event and stops, returning normally. -/
theorem crawlLoop_budget {cfg : CrawlerConfig} {env : String → FetchOutcome}
    {st : CrawlState} (h1 : ¬ st.urlsToVisit.isEmpty = true)
    (h2 : ¬¬ st.pagesCrawled < cfg.maxPages) (h3 : ¬ st.cancelled = true)
    (h4 : cfg.maxFailedPages ≤ st.failedPages) :
    crawlLoop cfg env st = { st with events := st.events ++
      [⟨CrawlStatus.error, st.pagesCrawled, st.products.length⟩] } := by
  rw [crawlLoop, if_neg h1, dif_neg h2, if_neg h3, if_pos h4]

/-- Step equation: an already-visited URL is skipped. -/
theorem crawlLoop_skip {cfg : CrawlerConfig} {env : String → FetchOutcome}
    {st : CrawlState} {url : String} {rest : List String}
    (h1 : ¬ st.urlsToVisit.isEmpty = true)
    (h2 : ¬¬ st.pagesCrawled < cfg.maxPages) (h3 : ¬ st.cancelled = true)
    (h4 : ¬ cfg.maxFailedPages ≤ st.failedPages)
    (h5 : st.urlsToVisit = url :: rest)
    (h6 : st.visitedUrls.contains url = true) :
    crawlLoop cfg env st = crawlLoop cfg env { st with urlsToVisit := rest } := by
  conv_lhs => rw [crawlLoop]
  rw [if_neg h1, dif_neg h2, if_neg h3, if_neg h4]
  split
  · rename_i heq
    rw [h5] at heq
    cases heq
  · rename_i url' rest' heq
    rw [h5] at heq
    injection heq with e1 e2
    subst e1
    subst e2
    rw [if_pos h6]

/-- Step equation: a failed fetch increments the failure counter, emits
an error event, and continues. -/
theorem crawlLoop_fail {cfg : CrawlerConfig} {env : String → FetchOutcome}
    {st : CrawlState} {url : String} {rest : List String}
    (h1 : ¬ st.urlsToVisit.isEmpty = true)
    (h2 : ¬¬ st.pagesCrawled < cfg.maxPages) (h3 : ¬ st.cancelled = true)
    (h4 : ¬ cfg.maxFailedPages ≤ st.failedPages)
    (h5 : st.urlsToVisit = url :: rest)
    (h6 : ¬ st.visitedUrls.contains url = true)
    (h7 : env url = FetchOutcome.failure) :
    crawlLoop cfg env st = crawlLoop cfg env
      { st with
        urlsToVisit := rest
        visitedUrls := st.visitedUrls ++ [url]
        failedPages := st.failedPages + 1
        events := st.events ++
          [⟨CrawlStatus.error, st.pagesCrawled, st.products.length⟩] } := by
  conv_lhs => rw [crawlLoop]
  rw [if_neg h1, dif_neg h2, if_neg h3, if_neg h4]
  split
  · rename_i heq
    rw [h5] at heq
    cases heq
  · rename_i url' rest' heq
    rw [h5] at heq
    injection heq with e1 e2
    subst e1
    subst e2
    rw [if_neg h6, h7]

/-- Step equation: a successful fetch appends the page products, enqueues
the discovered links, bumps the page counter and emits a crawling event. -/
theorem crawlLoop_success {cfg : CrawlerConfig} {env : String → FetchOutcome}
    {st : CrawlState} {url : String} {rest : List String}
    {pageProducts : List RawProduct} {paginationLinks categoryLinks : List String}
    (h1 : ¬ st.urlsToVisit.isEmpty = true)
    (h2 : ¬¬ st.pagesCrawled < cfg.maxPages) (h3 : ¬ st.cancelled = true)
    (h4 : ¬ cfg.maxFailedPages ≤ st.failedPages)
    (h5 : st.urlsToVisit = url :: rest)
    (h6 : ¬ st.visitedUrls.contains url = true)
    (h7 : env url = FetchOutcome.success pageProducts paginationLinks categoryLinks) :
    crawlLoop cfg env st = crawlLoop cfg env
      { st with
        urlsToVisit := enqueueLinks (st.visitedUrls ++ [url])
          (enqueueLinks (st.visitedUrls ++ [url]) rest paginationLinks) categoryLinks
        visitedUrls := st.visitedUrls ++ [url]
        products := st.products ++ pageProducts
        pagesCrawled := st.pagesCrawled + 1
        events := st.events ++
          [⟨CrawlStatus.crawling, st.pagesCrawled + 1,
            (st.products ++ pageProducts).length⟩] } := by
  conv_lhs => rw [crawlLoop]
  rw [if_neg h1, dif_neg h2, if_neg h3, if_neg h4]
  split
  · rename_i heq
    rw [h5] at heq
    cases heq
  · rename_i url' rest' heq
    rw [h5] at heq
    injection heq with e1 e2
    subst e1
    subst e2
    rw [if_neg h6, h7]

/-- The loop never flips the cancellation flag and never lets the page
counter pass `maxPages`. -/
theorem crawlLoop_inv (cfg : CrawlerConfig) (env : String → FetchOutcome) :
    ∀ st : CrawlState, (crawlLoop cfg env st).cancelled = st.cancelled ∧
      (st.pagesCrawled ≤ cfg.maxPages →
        (crawlLoop cfg env st).pagesCrawled ≤ cfg.maxPages) := by
  refine crawlLoop.induct cfg env
    (fun st => (crawlLoop cfg env st).cancelled = st.cancelled ∧
      (st.pagesCrawled ≤ cfg.maxPages →
        (crawlLoop cfg env st).pagesCrawled ≤ cfg.maxPages))
    ?_ ?_ ?_ ?_ ?_ ?_ ?_ ?_
  · intro x h1
    rw [crawlLoop_empty h1]
    exact ⟨rfl, fun h => h⟩
  · intro x h1 h2
    rw [crawlLoop_maxPages h1 h2]
    exact ⟨rfl, fun h => h⟩
  · intro x h1 h2 h3
    rw [crawlLoop_cancel h1 h2 h3]
    exact ⟨rfl, fun h => h⟩
  · intro x h1 h2 h3 h4
    rw [crawlLoop_budget h1 h2 h3 h4]
    exact ⟨rfl, fun h => h⟩
  · intro x h1 h2 h3 h4 h5
    exact absurd (by simp [h5]) h1
  · intro x h1 h2 h3 h4 url rest h5 h6 ih
    rw [crawlLoop_skip h1 h2 h3 h4 h5 h6]
    exact ih
  · intro x h1 h2 h3 h4 url rest h5 h6 visited h7 ih
    rw [crawlLoop_fail h1 h2 h3 h4 h5 h6 h7]
    exact ih
  · intro x h1 h2 h3 h4 url rest h5 h6 visited pageProducts paginationLinks
      categoryLinks h7 products frontier1 frontier2 ih
    rw [crawlLoop_success h1 h2 h3 h4 h5 h6 h7]
    refine ⟨ih.1, fun _ => ih.2 ?_⟩
    show x.pagesCrawled + 1 ≤ cfg.maxPages
    have : x.pagesCrawled < cfg.maxPages := not_not.mp h2
    omega

/-- C8: when the loop would still run but the failed-page count has
reached the budget, it terminates normally with the budget error event
appended; the page counter never passes `maxPages`; and `crawl` always
returns its product list together with a terminal `completed` progress
event whose `productsFound` is the length of the returned (deduplicated)
list. -/
theorem C8_crawl_budget_and_bounds (cfg : CrawlerConfig)
    (env : String → FetchOutcome) (st : CrawlState) :
    (st.urlsToVisit ≠ [] → st.pagesCrawled < cfg.maxPages →
      st.cancelled = false → cfg.maxFailedPages ≤ st.failedPages →
      crawlLoop cfg env st = { st with events := st.events ++
        [⟨CrawlStatus.error, st.pagesCrawled, st.products.length⟩] }) ∧
    (st.pagesCrawled ≤ cfg.maxPages →
      (crawlLoop cfg env st).pagesCrawled ≤ cfg.maxPages) ∧
    (crawl cfg env).2.getLast? =
      some ⟨CrawlStatus.completed,
        (crawlLoop cfg env (initState cfg)).pagesCrawled,
        (crawl cfg env).1.length⟩ := by
  refine ⟨?_, (crawlLoop_inv cfg env st).2, ?_⟩
  · intro h1 h2 h3 h4
    exact crawlLoop_budget (by simpa [List.isEmpty_iff] using h1)
      (not_not.mpr h2) (by simp [h3]) h4
  · have hc : (crawlLoop cfg env (initState cfg)).cancelled = false := by
      rw [(crawlLoop_inv cfg env (initState cfg)).1]
      rfl
    unfold crawl
    simp [hc]

/-- Witness for C8: a frontier of one URL, the budget already reached, a
50-page cap. -/
theorem C8_witness :
    crawlLoop ⟨"s", 50, 5⟩ (fun _ => FetchOutcome.failure)
        ⟨["a"], [], [], 0, 5, false, []⟩ =
      ⟨["a"], [], [], 0, 5, false, [⟨CrawlStatus.error, 0, 0⟩]⟩ ∧
    (crawlLoop ⟨"s", 50, 5⟩ (fun _ => FetchOutcome.failure)
      ⟨["a"], [], [], 0, 5, false, []⟩).pagesCrawled ≤ 50 := by
  have h := C8_crawl_budget_and_bounds ⟨"s", 50, 5⟩
    (fun _ => FetchOutcome.failure) ⟨["a"], [], [], 0, 5, false, []⟩
  exact ⟨h.1 (by decide) (by decide) rfl (by decide), h.2.1 (by decide)⟩

/-! ### C10: symmetry of the similarity scorer -/

/-- The fuel-indexed edit distance is symmetric whenever the fuel covers
the combined length. -/
theorem levFuel_symm :
    ∀ (f : Nat) (xs ys : List Char), xs.length + ys.length ≤ f →
      levFuel f xs ys = levFuel f ys xs := by
  intro f
  induction f with
  | zero =>
    intro xs ys h
    match xs, ys with
    | [], [] => rfl
    | x :: xs, _ => simp at h
    | [], y :: ys => simp at h
  | succ f ih =>
    intro xs ys h
    match xs, ys with
    | [], [] => rfl
    | [], y :: ys => rfl
    | x :: xs, [] => rfl
    | x :: xs, y :: ys =>
      simp only [List.length_cons] at h
      have h1 : xs.length + (y :: ys).length ≤ f := by simp; omega
      have h2 : (x :: xs).length + ys.length ≤ f := by simp; omega
      have h3 : xs.length + ys.length ≤ f := by omega
      show (if x = y then levFuel f xs ys
          else 1 + min (levFuel f xs (y :: ys))
            (min (levFuel f (x :: xs) ys) (levFuel f xs ys))) =
        (if y = x then levFuel f ys xs
          else 1 + min (levFuel f ys (x :: xs))
            (min (levFuel f (y :: ys) xs) (levFuel f ys xs)))
      by_cases hxy : x = y
      · rw [if_pos hxy, if_pos hxy.symm, ih _ _ h3]
      · rw [if_neg hxy, if_neg (Ne.symm hxy)]
        rw [ih _ _ h1, ih _ _ h2, ih _ _ h3]
        omega

/-- The Levenshtein distance is symmetric. -/
theorem lev_symm (xs ys : List Char) : lev xs ys = lev ys xs := by
  unfold lev
  rw [levFuel_symm _ _ _ (Nat.le_refl _), Nat.add_comm]

/-- Lemma: `calculateNameSimilarity` is symmetric in its two names. -/
theorem calculateNameSimilarity_comm (name1 name2 : Option String) :
    calculateNameSimilarity name1 name2 = calculateNameSimilarity name2 name1 := by
  unfold calculateNameSimilarity
  cases h1 : truthyStr name1 <;> cases h2 : truthyStr name2 <;>
    simp only [Bool.and_false, Bool.false_and, Bool.and_true, Bool.true_and,
      Bool.false_eq_true, if_false]
  by_cases he : normalizeName (name1.getD "") = normalizeName (name2.getD "")
  · rw [if_pos he, if_pos he.symm]
  · rw [if_neg he, if_neg (Ne.symm he)]
    rw [Nat.max_comm, lev_symm]

/-- Lemma: `calculateWordSimilarity` is symmetric in its two names. -/
theorem calculateWordSimilarity_comm (name1 name2 : Option String) :
    calculateWordSimilarity name1 name2 = calculateWordSimilarity name2 name1 := by
  unfold calculateWordSimilarity
  cases h1 : truthyStr name1 <;> cases h2 : truthyStr name2 <;>
    simp only [Bool.and_false, Bool.false_and, Bool.and_true, Bool.true_and,
      Bool.false_eq_true, if_false]
  by_cases hz : (getWords (name1.getD "")).card = 0 ∨ (getWords (name2.getD "")).card = 0
  · rw [if_pos hz, if_pos (Or.symm hz)]
  · rw [if_neg hz, if_neg (fun hz' => hz (Or.symm hz'))]
    rw [Finset.inter_comm, Finset.union_comm]

/-- The name/price stages of the scorer are symmetric in the two
products. -/
theorem similarityRest_comm (opts : MatchOptions) (a b : Product)
    (base : ℚ) (ty : MatchType) :
    similarityRest opts a b base ty = similarityRest opts b a base ty := by
  unfold similarityRest
  rw [calculateNameSimilarity_comm, calculateWordSimilarity_comm]
  cases hpa : truthyPrice a.price <;> cases hpb : truthyPrice b.price <;>
    simp only [hpa, hpb, Bool.and_false, Bool.false_and, Bool.and_true,
      Bool.true_and, Bool.false_eq_true, if_false]
  rw [abs_sub_comm, add_comm (a.price.getD 0) (b.price.getD 0)]

/-- C10: `calculateSimilarity` is symmetric — swapping the source and the
competitor products changes neither the score nor the match type. -/
theorem C10_calculateSimilarity_comm (opts : MatchOptions) (a b : Product) :
    calculateSimilarity opts a b = calculateSimilarity opts b a := by
  unfold calculateSimilarity
  cases hsa : truthyStr a.sku <;> cases hsb : truthyStr b.sku <;>
    simp only [Bool.and_false, Bool.false_and, Bool.and_true, Bool.true_and,
      Bool.false_eq_true, if_false]
  case false.false => exact similarityRest_comm opts a b 0 MatchType.none
  case false.true => exact similarityRest_comm opts a b 0 MatchType.none
  case true.false => exact similarityRest_comm opts a b 0 MatchType.none
  case true.true =>
    by_cases heq : normSku (a.sku.getD "") = normSku (b.sku.getD "")
    · simp [heq]
    · rw [if_neg heq, if_neg (Ne.symm heq)]
      rw [Bool.or_comm]
      by_cases hpart : (charsContain (normSku (b.sku.getD "")).toList
            (normSku (a.sku.getD "")).toList ||
          charsContain (normSku (a.sku.getD "")).toList
            (normSku (b.sku.getD "")).toList) = true
      · rw [if_pos hpart, if_pos hpart]
        exact similarityRest_comm opts a b (3/10) MatchType.sku_partial
      · rw [if_neg hpart, if_neg hpart]
        exact similarityRest_comm opts a b 0 MatchType.none

end EcomCompare
